import Mathlib

/-!
# LevelDB logging extensions: `db/extensions.cc`

A shallow embedding of `leveldb_free`, `extensions::DelegateLogger::Logv`,
`leveldb_logger_create` and `leveldb_logger_destroy`.

The C functions are straight-line code over an ambient process state, so each
one becomes a function from a `World` (heap, host-application state, event
trace) to an execution result.  The C runtime facilities the code calls
(`_vscprintf`, `vsprintf_s` / `vsprintf`, `malloc`, `operator new`) are not part
of the repository; they are fields of a `CRuntime` value and every theorem
quantifies over them, adding a contract only where the property needs one.
-/

namespace Extensions

/-! ## Machine integers and build configuration -/

/-- Pointer width of the build: the code targets Win32 and x64. -/
inductive Arch
  | x86
  | x64
deriving DecidableEq, Repr

/-- Number of bits of `size_t` (and of a pointer). -/
def Arch.sizeBits : Arch → Nat
  | .x86 => 32
  | .x64 => 64

/-- Number of bytes of a pointer. -/
def Arch.ptrBytes (a : Arch) : Nat := a.sizeBits / 8

/-- Compile-time configuration: whether `_MSC_VER` is defined (selects the
`vsprintf_s` branch of the `#if` in `Logv`) and the pointer width. -/
structure Target where
  msc : Bool
  arch : Arch
deriving DecidableEq, Repr

/-- Largest value of the C type `int`. -/
def INT_MAX : Int := 2 ^ 31 - 1

/-- Result of an `int` computation, reduced to 32-bit two's complement. -/
def wrapInt (x : Int) : Int := (x + 2 ^ 31) % 2 ^ 32 - 2 ^ 31

/-- Conversion of an `int` to `size_t`: reduction modulo `2 ^ sizeBits`. -/
def toSizeT (a : Arch) (x : Int) : Nat := (x % 2 ^ a.sizeBits).toNat

/-! ## Process state -/

/-- A non-null heap address. The null pointer is `none : Option Addr`. -/
abbrev Addr := Nat

/-- The string terminator. -/
def NUL : Char := Char.ofNat 0

/-- One argument of a variable argument list. -/
inductive Arg
  | int (v : Int)
  | str (s : List Char)
  | chr (c : Char)
deriving DecidableEq, Repr

/-- A `va_list`. -/
abbrev VaList := List Arg

/-- The type `leveldb_log_string_fn`, `void (*)(const char* message)`: the
callback reads the bytes at `message` and acts on the host application state
`σ`, which only it can change. -/
abbrev leveldb_log_string_fn (σ : Type) := List Char → σ → σ

/-- The class `extensions::DelegateLogger`: one private field, set by the
constructor and never assigned again. -/
structure DelegateLogger (σ : Type) where
  logger : leveldb_log_string_fn σ

/-- What a live heap block holds. -/
inductive Obj (σ : Type)
  /-- a `char` array of `size` bytes obtained from `malloc` -/
  | chars (size : Nat)
  /-- a `struct leveldb_logger_t`; `rep` is `none` while still unassigned -/
  | leveldb_logger_t (rep : Option Addr)
  /-- an `extensions::DelegateLogger` -/
  | delegateLogger (obj : DelegateLogger σ)

/-- The live heap blocks, most recent first. -/
abbrev Heap (σ : Type) := List (Addr × Obj σ)

/-- Where `bufp` points: at the local array `buf` or at a `malloc` block. -/
inductive BufPtr
  | stack
  | heap (p : Addr)
deriving DecidableEq, Repr

/-- Observable steps of an execution, in program order. -/
inductive Event
  /-- call `malloc(size)`, which returned `ret` -/
  | malloc (size : Nat) (ret : Option Addr)
  /-- call `free(p)` -/
  | free (p : Addr)
  /-- call `operator new(size)`, which returned `ret` (`none`: `std::bad_alloc`) -/
  | opNew (size : Nat) (ret : Option Addr)
  /-- call `operator delete(p)` -/
  | opDelete (p : Addr)
  /-- the render call: target buffer, its capacity in bytes, the size that
  was declared to the renderer, and the number of bytes it stored -/
  | render (bufp : BufPtr) (capacity declared stored : Nat)
  /-- the callback was invoked on a buffer holding `message` -/
  | callback (message : List Char)
  /-- call `abort()` -/
  | abort
deriving DecidableEq, Repr

/-- The state of the process as far as this translation unit can observe it. -/
structure World (σ : Type) where
  heap : Heap σ
  host : σ
  trace : List Event

/-- Append an event to the trace. -/
def World.emit {σ : Type} (w : World σ) (e : Event) : World σ :=
  { w with trace := w.trace ++ [e] }

/-- Record a new live block. -/
def World.alloc {σ : Type} (w : World σ) (p : Addr) (o : Obj σ) : World σ :=
  { w with heap := (p, o) :: w.heap }

/-- Remove the block at `p` from the live set. -/
def World.release {σ : Type} (w : World σ) (p : Addr) : World σ :=
  { w with heap := w.heap.filter (fun b => b.1 ≠ p) }

/-- Overwrite the object stored in the block at `p`. -/
def World.store {σ : Type} (w : World σ) (p : Addr) (o : Obj σ) : World σ :=
  { w with heap := w.heap.map (fun b => if b.1 = p then (p, o) else b) }

/-- The object stored in the live block at `p`, if any. -/
def World.load {σ : Type} (w : World σ) (p : Addr) : Option (Obj σ) :=
  (w.heap.find? (fun b => b.1 = p)).map Prod.snd

/-- The addresses of the live blocks. -/
def World.liveAddrs {σ : Type} (w : World σ) : List Addr := w.heap.map Prod.fst

/-- How a call ended. -/
inductive Status
  /-- the function returned to its caller -/
  | returned
  /-- the process was terminated by `abort()` -/
  | aborted
  /-- a `new` expression threw `std::bad_alloc` -/
  | badAlloc
  /-- the call dereferenced or deleted something that is not a live object of
  the expected type -/
  | undefined
deriving DecidableEq, Repr

/-- Result of running a `void` function. -/
structure Exec (σ : Type) where
  status : Status
  world : World σ

/-! ## The C runtime -/

/-- What a render call did: its return value and the bytes it stored,
starting at the first byte of the buffer it was given. -/
structure RenderResult where
  n : Int
  written : List Char
deriving DecidableEq, Repr

/-- The runtime facilities used by `extensions.cc`. Each field is the
observable result of one library call. `Logv` hands the same `va_list` to the
measuring call and to the render call, so both receive the same `ap`. A render
call reports failure through a negative return value. -/
structure CRuntime (σ : Type) where
  /-- return value of `_vscprintf(format, ap)` -/
  vscprintf : String → VaList → Int
  /-- effect of `vsprintf_s(buffer, sizeOfBuffer, format, ap)` -/
  vsprintf_s : Nat → String → VaList → RenderResult
  /-- effect of `vsprintf(buffer, format, ap)` -/
  vsprintf : String → VaList → RenderResult
  /-- result of `malloc(size)` in a given heap -/
  malloc : Heap σ → Nat → Option Addr
  /-- result of `operator new(size)` in a given heap -/
  operatorNew : Heap σ → Nat → Option Addr

/-! ## `extensions.cc` -/

/-- The value of `_countof(buf)` for `char buf[128]`. -/
def countof_buf : Nat := 128

/-- The function `leveldb_free`:
`if (value) free(value);` -/
def leveldb_free {σ : Type} (value : Option Addr) (w : World σ) : Exec σ :=
  match value with
  | none => ⟨.returned, w⟩
  | some p => ⟨.returned, (w.release p).emit (.free p)⟩

/-- The initialiser `size_t sz = _vscprintf(format, ap)+1;`: the sum is
computed in `int` and converted to `size_t`. -/
def requiredSize {σ : Type} (tgt : Target) (rt : CRuntime σ) (format : String)
    (ap : VaList) : Nat :=
  toSizeT tgt.arch (wrapInt (rt.vscprintf format ap + 1))

/-- The render call of `Logv`: `vsprintf_s(bufp, sz, format, ap)` when
`_MSC_VER` is defined, `vsprintf(bufp, format, ap)` otherwise. -/
def renderStep {σ : Type} (tgt : Target) (rt : CRuntime σ) (sz : Nat) (format : String)
    (ap : VaList) : RenderResult :=
  if tgt.msc then rt.vsprintf_s sz format ap else rt.vsprintf format ap

/-- Second half of `Logv`, from the render call on, once `bufp` is chosen:
`int n = ...; if (n < 0) abort(); logger(bufp); if (bufp != buf) free(bufp);`
The render event records the number of bytes stored next to the capacity of
the buffer, so staying inside the buffer is a property of the trace. The
callback is handed the buffer, whose contents are the bytes just stored. -/
def DelegateLogger.renderAndDeliver {σ : Type} (self : DelegateLogger σ) (tgt : Target)
    (rt : CRuntime σ) (format : String) (ap : VaList) (sz : Nat) (bufp : BufPtr)
    (capacity : Nat) (w : World σ) : Exec σ :=
  -- int n = vsprintf_s(bufp, sz, format, ap);   (or vsprintf(bufp, format, ap))
  let r := renderStep tgt rt sz format ap
  let w1 := w.emit (.render bufp capacity sz r.written.length)
  -- if (n < 0) abort();
  if r.n < 0 then
    ⟨.aborted, w1.emit .abort⟩
  else
    -- logger(bufp);
    let w2 := ({ w1 with host := self.logger r.written w1.host } : World σ).emit
      (.callback r.written)
    -- if (bufp != buf) free(bufp);
    match bufp with
    | .stack => ⟨.returned, w2⟩
    | .heap p => ⟨.returned, (w2.release p).emit (.free p)⟩

/-- The method `DelegateLogger::Logv(const char* format, va_list ap)`. -/
def DelegateLogger.Logv {σ : Type} (self : DelegateLogger σ) (tgt : Target)
    (rt : CRuntime σ) (format : String) (ap : VaList) (w : World σ) : Exec σ :=
  -- char buf[128];
  -- size_t sz = _vscprintf(format, ap)+1;
  let sz := requiredSize tgt rt format ap
  -- char* bufp = buf;
  -- if (sz > _countof(buf)) {
  if sz > countof_buf then
    -- bufp = (char*)malloc(sz);
    match rt.malloc w.heap sz with
    -- if (!bufp) abort();
    | none => ⟨.aborted, (w.emit (.malloc sz none)).emit .abort⟩
    | some p =>
      self.renderAndDeliver tgt rt format ap sz (.heap p) sz
        ((w.alloc p (.chars sz)).emit (.malloc sz (some p)))
  else
    self.renderAndDeliver tgt rt format ap sz .stack countof_buf w

/-- Size in bytes of `struct leveldb_logger_t` (one pointer). -/
def sizeof_logger_t (tgt : Target) : Nat := tgt.arch.ptrBytes

/-- Size in bytes of `extensions::DelegateLogger` (virtual table pointer and
the callback pointer). -/
def sizeof_DelegateLogger (tgt : Target) : Nat := 2 * tgt.arch.ptrBytes

/-- The function `leveldb_logger_create`. The result is the returned handle,
or `none` when one of the two `new` expressions threw. -/
def leveldb_logger_create {σ : Type} (tgt : Target) (rt : CRuntime σ)
    (logger : leveldb_log_string_fn σ) (w : World σ) : Option Addr × Exec σ :=
  -- leveldb_logger_t* result = new leveldb_logger_t;
  match rt.operatorNew w.heap (sizeof_logger_t tgt) with
  | none => (none, ⟨.badAlloc, w.emit (.opNew (sizeof_logger_t tgt) none)⟩)
  | some result =>
    let w1 := (w.alloc result (.leveldb_logger_t none)).emit
      (.opNew (sizeof_logger_t tgt) (some result))
    -- result->rep = new extensions::DelegateLogger(logger);
    match rt.operatorNew w1.heap (sizeof_DelegateLogger tgt) with
    | none => (none, ⟨.badAlloc, w1.emit (.opNew (sizeof_DelegateLogger tgt) none)⟩)
    | some rep =>
      let w2 := (w1.alloc rep (.delegateLogger ⟨logger⟩)).emit
        (.opNew (sizeof_DelegateLogger tgt) (some rep))
      (some result, ⟨.returned, w2.store result (.leveldb_logger_t (some rep))⟩)

/-- The function `leveldb_logger_destroy`:
`delete logger->rep; delete logger;` -/
def leveldb_logger_destroy {σ : Type} (logger : Addr) (w : World σ) : Exec σ :=
  match w.load logger with
  | some (.leveldb_logger_t (some rep)) =>
    match w.load rep with
    | some (.delegateLogger _) =>
      let w1 := (w.release rep).emit (.opDelete rep)
      ⟨.returned, (w1.release logger).emit (.opDelete logger)⟩
    | _ => ⟨.undefined, w⟩
  | _ => ⟨.undefined, w⟩

/-! ## Reading traces and buffers -/

/-- The events a call appended to the trace of the world it started in. -/
def newEvents {σ : Type} (w : World σ) (e : Exec σ) : List Event :=
  e.world.trace.drop w.trace.length

/-- The messages of the callback invocations in a trace, in order. -/
def callbacks (es : List Event) : List (List Char) :=
  es.filterMap (fun e => match e with
    | .callback m => some m
    | _ => none)

/-- The `malloc` calls in a trace: requested size and result. -/
def mallocCalls (es : List Event) : List (Nat × Option Addr) :=
  es.filterMap (fun e => match e with
    | .malloc s r => some (s, r)
    | _ => none)

/-- The `free` calls in a trace. -/
def freeCalls (es : List Event) : List Addr :=
  es.filterMap (fun e => match e with
    | .free p => some p
    | _ => none)

/-- The render calls in a trace: buffer, capacity, declared size, bytes stored. -/
def renderCalls (es : List Event) : List (BufPtr × Nat × Nat × Nat) :=
  es.filterMap (fun e => match e with
    | .render b c d s => some (b, c, d, s)
    | _ => none)

/-- The C string found at the start of a buffer: the bytes before the first
terminator. -/
def cstr (bytes : List Char) : List Char := bytes.takeWhile (fun c => c ≠ NUL)

/-! ## Contracts of the runtime -/

/-- A formatting semantics: the text a format and its arguments render to, or
`none` when the combination is malformed. -/
abbrev Formatter := String → VaList → Option (List Char)

/-- The runtime measures and renders according to the formatting semantics
`fmt`: for every rendering that an `int` can count, the measuring call returns
its length, and a render call that is given room for the text and its
terminator stores exactly those bytes and returns the length. -/
structure Conforms {σ : Type} (rt : CRuntime σ) (fmt : Formatter) : Prop where
  measure : ∀ format ap s, fmt format ap = some s → (s.length : Int) ≤ INT_MAX →
    rt.vscprintf format ap = s.length
  render_s : ∀ sz format ap s, fmt format ap = some s → (s.length : Int) ≤ INT_MAX →
    s.length < sz → rt.vsprintf_s sz format ap = ⟨s.length, s ++ [NUL]⟩
  render : ∀ format ap s, fmt format ap = some s → (s.length : Int) ≤ INT_MAX →
    rt.vsprintf format ap = ⟨s.length, s ++ [NUL]⟩

/-- An allocation function never hands out the address of a live block. -/
def FreshAlloc {σ : Type} (alloc : Heap σ → Nat → Option Addr) : Prop :=
  ∀ h sz p, alloc h sz = some p → p ∉ h.map Prod.fst

/-! ## A reference runtime, used to instantiate the theorems -/

/-- Decimal text of an integer, as `%d` prints it. -/
def decimal (v : Int) : List Char :=
  if v < 0 then '-' :: Nat.toDigits 10 v.natAbs else Nat.toDigits 10 v.natAbs

/-- A small formatting semantics: `%d`, `%s`, `%c` and `%%`; any other
conversion, or an argument of the wrong kind, is malformed. -/
def formatChars : List Char → VaList → Option (List Char)
  | [], _ => some []
  | [c], _ => if c = '%' then none else some [c]
  | c :: d :: rest, ap =>
    if c = '%' then
      if d = '%' then (formatChars rest ap).map (fun t => '%' :: t)
      else match ap with
        | .int v :: ap1 =>
          if d = 'd' then (formatChars rest ap1).map (fun t => decimal v ++ t) else none
        | .str s :: ap1 =>
          if d = 's' then (formatChars rest ap1).map (fun t => s ++ t) else none
        | .chr x :: ap1 =>
          if d = 'c' then (formatChars rest ap1).map (fun t => x :: t) else none
        | [] => none
    else (formatChars (d :: rest) ap).map (fun t => c :: t)

/-- The formatting semantics `formatChars` on a format given as a string. -/
def stdFormat : Formatter := fun format ap => formatChars format.toList ap

/-- An address above every live block. -/
def freshAddr {σ : Type} (h : Heap σ) : Addr := (h.map Prod.fst).foldr max 0 + 1

/-- An allocator that serves requests of at most `limit` bytes at a fresh
address and fails on larger ones. -/
def bumpAlloc {σ : Type} (limit : Nat) : Heap σ → Nat → Option Addr :=
  fun h sz => if sz ≤ limit then some (freshAddr h) else none

/-- A runtime that implements the formatting semantics `fmt`, with
`vsprintf_s` refusing a buffer size that cannot hold the text and its
terminator, over the allocator `alloc`. -/
def stdRuntime {σ : Type} (fmt : Formatter) (alloc : Heap σ → Nat → Option Addr) :
    CRuntime σ where
  vscprintf := fun format ap =>
    match fmt format ap with
    | some s => if (s.length : Int) ≤ INT_MAX then s.length else -1
    | none => -1
  vsprintf_s := fun sz format ap =>
    match fmt format ap with
    | some s =>
      if (s.length : Int) ≤ INT_MAX ∧ s.length < sz then ⟨s.length, s ++ [NUL]⟩
      else ⟨-1, if sz = 0 then [] else [NUL]⟩
    | none => ⟨-1, if sz = 0 then [] else [NUL]⟩
  vsprintf := fun format ap =>
    match fmt format ap with
    | some s => if (s.length : Int) ≤ INT_MAX then ⟨s.length, s ++ [NUL]⟩ else ⟨-1, s ++ [NUL]⟩
    | none => ⟨-1, []⟩
  malloc := alloc
  operatorNew := alloc

/-- A host callback that appends each message it is given to a list. -/
def appendToList : leveldb_log_string_fn (List String) :=
  fun message log => log ++ [String.mk (cstr message)]

/-- The adapter around `appendToList`. -/
def listLogger : DelegateLogger (List String) := ⟨appendToList⟩

/-- A world with an empty heap, an empty message list and no history. -/
def emptyWorld : World (List String) := ⟨[], [], []⟩

/-- The 32-bit build with the Microsoft compiler. -/
def msvc32 : Target := ⟨true, .x86⟩

/-- The 64-bit build with the Microsoft compiler. -/
def msvc64 : Target := ⟨true, .x64⟩

/-- A 64-bit build whose compiler does not define `_MSC_VER`. -/
def other64 : Target := ⟨false, .x64⟩

end Extensions

/-! ## Basic facts about the embedding -/

namespace Extensions

variable {σ : Type}

theorem filter_ne_of_not_mem (h : Heap σ) (p : Addr) (hp : p ∉ h.map Prod.fst) :
    h.filter (fun b => b.1 ≠ p) = h := by
  rw [List.filter_eq_self]
  intro b hb
  have hne : b.1 ≠ p := fun e => hp (e ▸ List.mem_map_of_mem Prod.fst hb)
  simpa using hne

theorem wrapInt_of_range (x : Int) (h0 : -(2 ^ 31) ≤ x) (h1 : x < 2 ^ 31) : wrapInt x = x := by
  unfold wrapInt
  rw [Int.emod_eq_of_lt (by omega) (by omega)]
  omega

theorem toSizeT_of_nat (a : Arch) (n : Nat) (h : (n : Int) < 2 ^ 31) :
    toSizeT a (n : Int) = n := by
  unfold toSizeT
  have hb : (n : Int) < 2 ^ a.sizeBits := by
    cases a <;> simp only [Arch.sizeBits] <;> omega
  rw [Int.emod_eq_of_lt (by omega) hb]
  simp

/-- When the measuring call returns a length below `INT_MAX`, `sz` is that
length plus one. -/
theorem requiredSize_of_measure (tgt : Target) (rt : CRuntime σ) (format : String)
    (ap : VaList) (len : Nat) (hm : rt.vscprintf format ap = len)
    (hlen : (len : Int) < INT_MAX) : requiredSize tgt rt format ap = len + 1 := by
  unfold INT_MAX at hlen
  unfold requiredSize
  rw [hm, wrapInt_of_range _ (by omega) (by omega)]
  have := toSizeT_of_nat tgt.arch (len + 1) (by push_cast; omega)
  simpa using this

/-- When the measuring call returns a length, `sz` exceeds it, also at
`INT_MAX` where the `int` sum wraps. -/
theorem lt_requiredSize_of_measure (tgt : Target) (rt : CRuntime σ) (format : String)
    (ap : VaList) (len : Nat) (hm : rt.vscprintf format ap = len)
    (hlen : (len : Int) ≤ INT_MAX) : len < requiredSize tgt rt format ap := by
  by_cases h : (len : Int) < INT_MAX
  · rw [requiredSize_of_measure tgt rt format ap len hm h]; omega
  · unfold INT_MAX at hlen h
    have hl : (len : Int) = 2 ^ 31 - 1 := by omega
    unfold requiredSize
    rw [hm, hl]
    have hw : wrapInt (2 ^ 31 - 1 + 1) = -(2 ^ 31) := by decide
    rw [hw]
    have hn : len = 2 ^ 31 - 1 := by omega
    rw [hn]
    cases tgt.arch <;> simp only [toSizeT, Arch.sizeBits] <;> decide

/-- When the measuring call returns `-1`, `sz` is zero. -/
theorem requiredSize_of_failure (tgt : Target) (rt : CRuntime σ) (format : String)
    (ap : VaList) (hm : rt.vscprintf format ap = -1) : requiredSize tgt rt format ap = 0 := by
  unfold requiredSize
  rw [hm]
  cases tgt.arch <;> decide

/-! ## The five paths through `Logv` -/

/-- Stack buffer, render call fails. -/
theorem Logv_stack_abort (self : DelegateLogger σ) (tgt : Target) (rt : CRuntime σ)
    (format : String) (ap : VaList) (w : World σ)
    (hsz : requiredSize tgt rt format ap ≤ countof_buf)
    (hn : (renderStep tgt rt (requiredSize tgt rt format ap) format ap).n < 0) :
    self.Logv tgt rt format ap w =
      ⟨.aborted, ⟨w.heap, w.host, w.trace ++
        [.render .stack countof_buf (requiredSize tgt rt format ap)
            (renderStep tgt rt (requiredSize tgt rt format ap) format ap).written.length,
         .abort]⟩⟩ := by
  simp [DelegateLogger.Logv, DelegateLogger.renderAndDeliver, World.emit, Nat.not_lt.mpr hsz, hn]

/-- Stack buffer, render call succeeds. -/
theorem Logv_stack_ok (self : DelegateLogger σ) (tgt : Target) (rt : CRuntime σ)
    (format : String) (ap : VaList) (w : World σ)
    (hsz : requiredSize tgt rt format ap ≤ countof_buf)
    (hn : 0 ≤ (renderStep tgt rt (requiredSize tgt rt format ap) format ap).n) :
    self.Logv tgt rt format ap w =
      ⟨.returned, ⟨w.heap,
        self.logger (renderStep tgt rt (requiredSize tgt rt format ap) format ap).written w.host,
        w.trace ++
        [.render .stack countof_buf (requiredSize tgt rt format ap)
            (renderStep tgt rt (requiredSize tgt rt format ap) format ap).written.length,
         .callback (renderStep tgt rt (requiredSize tgt rt format ap) format ap).written]⟩⟩ := by
  simp [DelegateLogger.Logv, DelegateLogger.renderAndDeliver, World.emit, Nat.not_lt.mpr hsz,
    Int.not_lt.mpr hn]

/-- Heap buffer needed, `malloc` returns null. -/
theorem Logv_heap_null (self : DelegateLogger σ) (tgt : Target) (rt : CRuntime σ)
    (format : String) (ap : VaList) (w : World σ)
    (hsz : countof_buf < requiredSize tgt rt format ap)
    (hm : rt.malloc w.heap (requiredSize tgt rt format ap) = none) :
    self.Logv tgt rt format ap w =
      ⟨.aborted, ⟨w.heap, w.host, w.trace ++
        [.malloc (requiredSize tgt rt format ap) none, .abort]⟩⟩ := by
  simp [DelegateLogger.Logv, World.emit, hsz, hm]

/-- Heap buffer obtained, render call fails. -/
theorem Logv_heap_abort (self : DelegateLogger σ) (tgt : Target) (rt : CRuntime σ)
    (format : String) (ap : VaList) (w : World σ) (p : Addr)
    (hsz : countof_buf < requiredSize tgt rt format ap)
    (hm : rt.malloc w.heap (requiredSize tgt rt format ap) = some p)
    (hn : (renderStep tgt rt (requiredSize tgt rt format ap) format ap).n < 0) :
    self.Logv tgt rt format ap w =
      ⟨.aborted, ⟨(p, .chars (requiredSize tgt rt format ap)) :: w.heap, w.host, w.trace ++
        [.malloc (requiredSize tgt rt format ap) (some p),
         .render (.heap p) (requiredSize tgt rt format ap) (requiredSize tgt rt format ap)
            (renderStep tgt rt (requiredSize tgt rt format ap) format ap).written.length,
         .abort]⟩⟩ := by
  simp [DelegateLogger.Logv, DelegateLogger.renderAndDeliver, World.emit, World.alloc, hsz, hm, hn]

/-- Heap buffer obtained, render call succeeds. -/
theorem Logv_heap_ok (self : DelegateLogger σ) (tgt : Target) (rt : CRuntime σ)
    (format : String) (ap : VaList) (w : World σ) (p : Addr)
    (hsz : countof_buf < requiredSize tgt rt format ap)
    (hm : rt.malloc w.heap (requiredSize tgt rt format ap) = some p)
    (hn : 0 ≤ (renderStep tgt rt (requiredSize tgt rt format ap) format ap).n) :
    self.Logv tgt rt format ap w =
      ⟨.returned, ⟨((p, .chars (requiredSize tgt rt format ap)) :: w.heap).filter
          (fun b => b.1 ≠ p),
        self.logger (renderStep tgt rt (requiredSize tgt rt format ap) format ap).written w.host,
        w.trace ++
        [.malloc (requiredSize tgt rt format ap) (some p),
         .render (.heap p) (requiredSize tgt rt format ap) (requiredSize tgt rt format ap)
            (renderStep tgt rt (requiredSize tgt rt format ap) format ap).written.length,
         .callback (renderStep tgt rt (requiredSize tgt rt format ap) format ap).written,
         .free p]⟩⟩ := by
  simp [DelegateLogger.Logv, DelegateLogger.renderAndDeliver, World.emit, World.alloc,
    World.release, hsz, hm, Int.not_lt.mpr hn]

/-- A conforming runtime renders a measured text in full whenever the declared
size is the one `Logv` computes. -/
theorem renderStep_of_conforms (tgt : Target) (rt : CRuntime σ) (fmt : Formatter)
    (hc : Conforms rt fmt) (format : String) (ap : VaList) (s : List Char)
    (hs : fmt format ap = some s) (hlen : (s.length : Int) ≤ INT_MAX) :
    renderStep tgt rt (requiredSize tgt rt format ap) format ap = ⟨s.length, s ++ [NUL]⟩ := by
  unfold renderStep
  cases tgt.msc with
  | true =>
    simp only [if_true]
    exact hc.render_s _ format ap s hs hlen
      (lt_requiredSize_of_measure tgt rt format ap s.length (hc.measure format ap s hs hlen) hlen)
  | false =>
    simpa using hc.render format ap s hs hlen

/-- The reference runtime conforms to the semantics it is built from. -/
theorem stdRuntime_conforms (fmt : Formatter) (alloc : Heap σ → Nat → Option Addr) :
    Conforms (stdRuntime fmt alloc) fmt where
  measure := by
    intro format ap s hs hlen
    simp [stdRuntime, hs, hlen]
  render_s := by
    intro sz format ap s hs hlen hlt
    simp [stdRuntime, hs, hlen, hlt]
  render := by
    intro format ap s hs hlen
    simp [stdRuntime, hs, hlen]

theorem le_foldr_max (l : List Nat) (a : Nat) (h : a ∈ l) : a ≤ l.foldr max 0 := by
  induction l with
  | nil => cases h
  | cons b t ih =>
    simp only [List.foldr_cons]
    rcases List.mem_cons.mp h with e | m
    · subst e; exact Nat.le_max_left _ _
    · exact Nat.le_trans (ih m) (Nat.le_max_right _ _)

/-- The reference allocator never hands out a live address. -/
theorem bumpAlloc_fresh (limit : Nat) : FreshAlloc (bumpAlloc limit : Heap σ → Nat → Option Addr) := by
  intro h sz p hp hmem
  unfold bumpAlloc at hp
  split at hp
  · have e : freshAddr h = p := Option.some.inj hp
    have hle := le_foldr_max _ p hmem
    have e2 : @Eq Nat p ((h.map Prod.fst).foldr max 0 + 1) := e.symm
    omega
  · cases hp

/-- The bytes before the terminator of `s ++ [NUL]` are `s` when `s` itself
has no terminator in it. -/
theorem cstr_append_NUL (s : List Char) (h : NUL ∉ s) : cstr (s ++ [NUL]) = s := by
  unfold cstr
  induction s with
  | nil => simp [List.takeWhile]
  | cons c t ih =>
    have hc : c ≠ NUL := fun e => h (by simp [e])
    have ht : NUL ∉ t := fun m => h (List.mem_cons_of_mem _ m)
    simpa [List.takeWhile, hc] using ih ht

/-- Under a conforming runtime, `sz` is the rendered length plus one. -/
theorem requiredSize_of_conforms (tgt : Target) (rt : CRuntime σ) (fmt : Formatter)
    (hc : Conforms rt fmt) (format : String) (ap : VaList) (s : List Char)
    (hs : fmt format ap = some s) (hlen : (s.length : Int) < INT_MAX) :
    requiredSize tgt rt format ap = s.length + 1 :=
  requiredSize_of_measure tgt rt format ap s.length
    (hc.measure format ap s hs (Int.le_of_lt hlen)) hlen

/-- The reference semantics renders `"%s"` with one string argument to that string. -/
theorem stdFormat_percent_s (s : List Char) : stdFormat "%s" [.str s] = some s := by
  simp [stdFormat, formatChars]

/-- The character `x` repeated has no terminator in it. -/
theorem NUL_not_mem_replicate (n : Nat) : NUL ∉ List.replicate n 'x' := by
  intro h
  have := List.eq_of_mem_replicate h
  exact absurd this (by decide)

/-! ## The claims -/

/-- C9: `leveldb_free` called with a null buffer returns without calling the
deallocator and leaves the process state (heap, host state, trace) exactly as
it was; called with a non-null buffer `p` it returns after exactly one
deallocator call, `free(p)`, which removes the block at `p` from the live heap
and nothing else. -/
theorem leveldb_free_null_or_release (w : World σ) (p : Addr) :
    (leveldb_free none w).status = .returned ∧
    (leveldb_free none w).world = w ∧
    newEvents w (leveldb_free none w) = [] ∧
    (leveldb_free (some p) w).status = .returned ∧
    newEvents w (leveldb_free (some p) w) = [.free p] ∧
    (leveldb_free (some p) w).world.heap = w.heap.filter (fun b => b.1 ≠ p) ∧
    p ∉ (leveldb_free (some p) w).world.liveAddrs ∧
    (leveldb_free (some p) w).world.host = w.host := by
  refine ⟨rfl, rfl, ?_, rfl, ?_, rfl, ?_, rfl⟩
  · simp [newEvents, leveldb_free]
  · simp [newEvents, leveldb_free, World.emit, World.release]
  · simp [leveldb_free, World.emit, World.release, World.liveAddrs]

/-- C7: when `sz` exceeds the 128-byte scratch buffer and `malloc(sz)` returns
null, `Logv` ends in `abort()`: the only steps of the call are the failed
`malloc` and the `abort`, so there is no render call and no callback
invocation, and the heap and the host state are untouched. -/
theorem Logv_malloc_null_aborts (self : DelegateLogger σ) (tgt : Target) (rt : CRuntime σ)
    (format : String) (ap : VaList) (w : World σ)
    (hsz : countof_buf < requiredSize tgt rt format ap)
    (hm : rt.malloc w.heap (requiredSize tgt rt format ap) = none) :
    (self.Logv tgt rt format ap w).status = .aborted ∧
    newEvents w (self.Logv tgt rt format ap w) =
      [.malloc (requiredSize tgt rt format ap) none, .abort] ∧
    renderCalls (newEvents w (self.Logv tgt rt format ap w)) = [] ∧
    callbacks (newEvents w (self.Logv tgt rt format ap w)) = [] ∧
    (self.Logv tgt rt format ap w).world.heap = w.heap ∧
    (self.Logv tgt rt format ap w).world.host = w.host := by
  rw [Logv_heap_null self tgt rt format ap w hsz hm]
  simp [newEvents, renderCalls, callbacks]

/-- The reference runtime asks for `n + 1` bytes for a message of `n` characters. -/
theorem requiredSize_replicate (tgt : Target) (alloc : Heap (List String) → Nat → Option Addr)
    (n : Nat) (hn : (n : Int) < INT_MAX) :
    requiredSize tgt (stdRuntime stdFormat alloc) "%s" [.str (List.replicate n 'x')] = n + 1 := by
  have h := requiredSize_of_conforms tgt (stdRuntime stdFormat alloc) stdFormat
    (stdRuntime_conforms stdFormat alloc) "%s" [.str (List.replicate n 'x')]
    (List.replicate n 'x') (stdFormat_percent_s _)
    (by rw [List.length_replicate]; exact hn)
  rw [List.length_replicate] at h
  exact h

/-- Witness for C7: a 500-character message when the allocator refuses every
request above 100 bytes. -/
theorem Logv_malloc_null_aborts_witness :
    (listLogger.Logv msvc64 (stdRuntime stdFormat (bumpAlloc 100)) "%s"
      [.str (List.replicate 500 'x')] emptyWorld).status = .aborted ∧
    newEvents emptyWorld (listLogger.Logv msvc64 (stdRuntime stdFormat (bumpAlloc 100)) "%s"
      [.str (List.replicate 500 'x')] emptyWorld) = [.malloc 501 none, .abort] ∧
    (listLogger.Logv msvc64 (stdRuntime stdFormat (bumpAlloc 100)) "%s"
      [.str (List.replicate 500 'x')] emptyWorld).world.host = [] := by
  have h := Logv_malloc_null_aborts listLogger msvc64 (stdRuntime stdFormat (bumpAlloc 100)) "%s"
    [.str (List.replicate 500 'x')] emptyWorld
    (by rw [requiredSize_replicate _ _ 500 (by decide)]; decide)
    (by rw [requiredSize_replicate _ _ 500 (by decide)]; simp [stdRuntime, bumpAlloc])
  rw [requiredSize_replicate _ _ 500 (by decide)] at h
  exact ⟨h.1, h.2.1, h.2.2.2.2.2⟩

/-- C10: when the measuring call returns `-1`, `sz` is `-1 + 1 = 0`; `Logv`
makes no `malloc` call and leaves the heap as it was, and makes the render call
on the stack buffer with declared size `0`. What happens next depends only on
that render call: if it returns a negative value the call ends in `abort()`
with no callback invocation, and if it returns a non-negative value `Logv`
invokes the callback on what was stored and returns. -/
theorem Logv_measure_failure (self : DelegateLogger σ) (tgt : Target) (rt : CRuntime σ)
    (format : String) (ap : VaList) (w : World σ)
    (hm : rt.vscprintf format ap = -1) :
    requiredSize tgt rt format ap = 0 ∧
    mallocCalls (newEvents w (self.Logv tgt rt format ap w)) = [] ∧
    (self.Logv tgt rt format ap w).world.heap = w.heap ∧
    renderCalls (newEvents w (self.Logv tgt rt format ap w)) =
      [(.stack, countof_buf, 0, (renderStep tgt rt 0 format ap).written.length)] ∧
    ((renderStep tgt rt 0 format ap).n < 0 →
      (self.Logv tgt rt format ap w).status = .aborted ∧
      callbacks (newEvents w (self.Logv tgt rt format ap w)) = []) ∧
    (0 ≤ (renderStep tgt rt 0 format ap).n →
      (self.Logv tgt rt format ap w).status = .returned ∧
      callbacks (newEvents w (self.Logv tgt rt format ap w)) =
        [(renderStep tgt rt 0 format ap).written]) := by
  have hz := requiredSize_of_failure tgt rt format ap hm
  have hsz : requiredSize tgt rt format ap ≤ countof_buf := by rw [hz]; decide
  refine ⟨hz, ?_⟩
  by_cases hn : (renderStep tgt rt 0 format ap).n < 0
  · have hn2 : (renderStep tgt rt (requiredSize tgt rt format ap) format ap).n < 0 := by
      rw [hz]; exact hn
    rw [Logv_stack_abort self tgt rt format ap w hsz hn2, hz]
    simp [newEvents, mallocCalls, renderCalls, callbacks, hn]
  · have hn2 : 0 ≤ (renderStep tgt rt (requiredSize tgt rt format ap) format ap).n := by
      rw [hz]; exact Int.not_lt.mp hn
    rw [Logv_stack_ok self tgt rt format ap w hsz hn2, hz]
    simp [newEvents, mallocCalls, renderCalls, callbacks, hn]

/-- A runtime whose measuring call always fails while its unchecked render
call stores the text `ok`. -/
def measureFailsRuntime : CRuntime (List String) where
  vscprintf := fun _ _ => -1
  vsprintf_s := fun _ _ _ => ⟨-1, []⟩
  vsprintf := fun _ _ => ⟨2, ['o', 'k', NUL]⟩
  malloc := bumpAlloc 0
  operatorNew := bumpAlloc 0

/-- Witness for C10: the malformed format `"%q"` under the reference runtime
(measure and render both fail: abort, callback skipped), and a runtime whose
measure fails while the render call succeeds (callback invoked). -/
theorem Logv_measure_failure_witness :
    ((listLogger.Logv msvc64 (stdRuntime stdFormat (bumpAlloc 100)) "%q" [] emptyWorld).status
        = .aborted ∧
      callbacks (newEvents emptyWorld
        (listLogger.Logv msvc64 (stdRuntime stdFormat (bumpAlloc 100)) "%q" [] emptyWorld)) = []) ∧
    ((listLogger.Logv other64 measureFailsRuntime "%d" [.int 7] emptyWorld).status = .returned ∧
      callbacks (newEvents emptyWorld
        (listLogger.Logv other64 measureFailsRuntime "%d" [.int 7] emptyWorld))
        = [['o', 'k', NUL]]) :=
  ⟨(Logv_measure_failure listLogger msvc64 (stdRuntime stdFormat (bumpAlloc 100)) "%q" []
      emptyWorld (by decide)).2.2.2.2.1 (by decide),
   (Logv_measure_failure listLogger other64 measureFailsRuntime "%d" [.int 7]
      emptyWorld (by decide)).2.2.2.2.2 (by decide)⟩

/-- C6: if the render call returns a negative value, `Logv` ends in `abort()`
and the callback is not invoked (the host state is untouched); conversely, if
the callback was invoked at all, the render call returned a non-negative value
and the one message delivered is everything that render call stored. Whenever
the render call is reached, the call aborts exactly when it returned a
negative value. -/
theorem Logv_render_failure_aborts (self : DelegateLogger σ) (tgt : Target) (rt : CRuntime σ)
    (format : String) (ap : VaList) (w : World σ) :
    ((renderStep tgt rt (requiredSize tgt rt format ap) format ap).n < 0 →
      (self.Logv tgt rt format ap w).status = .aborted ∧
      callbacks (newEvents w (self.Logv tgt rt format ap w)) = [] ∧
      (self.Logv tgt rt format ap w).world.host = w.host) ∧
    (callbacks (newEvents w (self.Logv tgt rt format ap w)) ≠ [] →
      0 ≤ (renderStep tgt rt (requiredSize tgt rt format ap) format ap).n ∧
      callbacks (newEvents w (self.Logv tgt rt format ap w)) =
        [(renderStep tgt rt (requiredSize tgt rt format ap) format ap).written]) ∧
    (renderCalls (newEvents w (self.Logv tgt rt format ap w)) ≠ [] →
      ((self.Logv tgt rt format ap w).status = .aborted ↔
        (renderStep tgt rt (requiredSize tgt rt format ap) format ap).n < 0)) := by
  by_cases hsz : countof_buf < requiredSize tgt rt format ap
  · cases hm : rt.malloc w.heap (requiredSize tgt rt format ap) with
    | none =>
      rw [Logv_heap_null self tgt rt format ap w hsz hm]
      simp [newEvents, renderCalls, callbacks]
    | some p =>
      by_cases hn : (renderStep tgt rt (requiredSize tgt rt format ap) format ap).n < 0
      · rw [Logv_heap_abort self tgt rt format ap w p hsz hm hn]
        simp [newEvents, renderCalls, callbacks, hn]
      · rw [Logv_heap_ok self tgt rt format ap w p hsz hm (Int.not_lt.mp hn)]
        simp [newEvents, renderCalls, callbacks, hn, Int.not_lt.mp hn]
  · by_cases hn : (renderStep tgt rt (requiredSize tgt rt format ap) format ap).n < 0
    · rw [Logv_stack_abort self tgt rt format ap w (Nat.not_lt.mp hsz) hn]
      simp [newEvents, renderCalls, callbacks, hn]
    · rw [Logv_stack_ok self tgt rt format ap w (Nat.not_lt.mp hsz) (Int.not_lt.mp hn)]
      simp [newEvents, renderCalls, callbacks, hn, Int.not_lt.mp hn]

/-- Witness for C6: the malformed format `"%q"` makes the render call of the
reference runtime return `-1`; the call aborts and the message list of the
host stays empty. -/
theorem Logv_render_failure_aborts_witness :
    (listLogger.Logv msvc32 (stdRuntime stdFormat (bumpAlloc 100)) "%q" [] emptyWorld).status
      = .aborted ∧
    callbacks (newEvents emptyWorld
      (listLogger.Logv msvc32 (stdRuntime stdFormat (bumpAlloc 100)) "%q" [] emptyWorld)) = [] ∧
    (listLogger.Logv msvc32 (stdRuntime stdFormat (bumpAlloc 100)) "%q" [] emptyWorld).world.host
      = [] :=
  (Logv_render_failure_aborts listLogger msvc32 (stdRuntime stdFormat (bumpAlloc 100)) "%q" []
    emptyWorld).1 (by decide)

/-- C4, as amended: a `Logv` call either returns, having invoked the callback
exactly once (on what the render call stored), or ends in `abort()`, having
invoked it zero times; it never invokes it more than once. It ends in
`abort()` exactly when a heap buffer is needed and `malloc` returns null, or
the render call returns a negative value. -/
theorem Logv_callback_once_or_abort (self : DelegateLogger σ) (tgt : Target)
    (rt : CRuntime σ) (format : String) (ap : VaList) (w : World σ) :
    (((self.Logv tgt rt format ap w).status = .returned ∧
        callbacks (newEvents w (self.Logv tgt rt format ap w)) =
          [(renderStep tgt rt (requiredSize tgt rt format ap) format ap).written]) ∨
      ((self.Logv tgt rt format ap w).status = .aborted ∧
        callbacks (newEvents w (self.Logv tgt rt format ap w)) = [])) ∧
    (callbacks (newEvents w (self.Logv tgt rt format ap w))).length ≤ 1 ∧
    ((self.Logv tgt rt format ap w).status = .aborted ↔
      (countof_buf < requiredSize tgt rt format ap ∧
        rt.malloc w.heap (requiredSize tgt rt format ap) = none) ∨
      (renderStep tgt rt (requiredSize tgt rt format ap) format ap).n < 0) := by
  by_cases hsz : countof_buf < requiredSize tgt rt format ap
  · cases hm : rt.malloc w.heap (requiredSize tgt rt format ap) with
    | none =>
      rw [Logv_heap_null self tgt rt format ap w hsz hm]
      simp [newEvents, callbacks, hsz]
    | some p =>
      by_cases hn : (renderStep tgt rt (requiredSize tgt rt format ap) format ap).n < 0
      · rw [Logv_heap_abort self tgt rt format ap w p hsz hm hn]
        simp [newEvents, callbacks, hn]
      · rw [Logv_heap_ok self tgt rt format ap w p hsz hm (Int.not_lt.mp hn)]
        simp [newEvents, callbacks, hn]
  · by_cases hn : (renderStep tgt rt (requiredSize tgt rt format ap) format ap).n < 0
    · rw [Logv_stack_abort self tgt rt format ap w (Nat.not_lt.mp hsz) hn]
      simp [newEvents, callbacks, hn]
    · rw [Logv_stack_ok self tgt rt format ap w (Nat.not_lt.mp hsz) (Int.not_lt.mp hn)]
      simp [newEvents, callbacks, hn, hsz]

/-- C4 fails as stated: logging a well-formed 300-character message while the
allocator cannot serve 301 bytes ends in `abort()` with the callback invoked
zero times. -/
theorem Logv_callback_never_invoked_example :
    (listLogger.Logv msvc32 (stdRuntime stdFormat (bumpAlloc 64)) "%s"
      [.str (List.replicate 300 'x')] emptyWorld).status = .aborted ∧
    (callbacks (newEvents emptyWorld
      (listLogger.Logv msvc32 (stdRuntime stdFormat (bumpAlloc 64)) "%s"
        [.str (List.replicate 300 'x')] emptyWorld))).length ≠ 1 := by
  have hsz := requiredSize_replicate msvc32 (bumpAlloc 64) 300 (by decide)
  have h := Logv_heap_null listLogger msvc32 (stdRuntime stdFormat (bumpAlloc 64)) "%s"
    [.str (List.replicate 300 'x')] emptyWorld (by rw [hsz]; decide)
    (by rw [hsz]; simp [stdRuntime, bumpAlloc])
  rw [hsz] at h
  rw [h]
  exact ⟨rfl, by decide⟩

/-- C2: when the text that `format` and `ap` render to is shorter than the
128-byte scratch buffer, `Logv` returns without calling `malloc` (the heap is
unchanged), renders into the stack buffer, and invokes the callback once on a
buffer holding exactly the rendered text followed by its terminator. -/
theorem Logv_short_message_no_malloc (self : DelegateLogger σ) (tgt : Target)
    (rt : CRuntime σ) (fmt : Formatter) (hc : Conforms rt fmt)
    (format : String) (ap : VaList) (w : World σ) (s : List Char)
    (hs : fmt format ap = some s) (hlen : s.length < countof_buf) :
    (self.Logv tgt rt format ap w).status = .returned ∧
    mallocCalls (newEvents w (self.Logv tgt rt format ap w)) = [] ∧
    (self.Logv tgt rt format ap w).world.heap = w.heap ∧
    renderCalls (newEvents w (self.Logv tgt rt format ap w)) =
      [(.stack, countof_buf, s.length + 1, s.length + 1)] ∧
    callbacks (newEvents w (self.Logv tgt rt format ap w)) = [s ++ [NUL]] ∧
    (self.Logv tgt rt format ap w).world.host = self.logger (s ++ [NUL]) w.host := by
  have hlen2 : s.length < 128 := hlen
  have hint : (s.length : Int) < INT_MAX := by unfold INT_MAX; omega
  have hsz := requiredSize_of_conforms tgt rt fmt hc format ap s hs hint
  have hr := renderStep_of_conforms tgt rt fmt hc format ap s hs (Int.le_of_lt hint)
  have hle : requiredSize tgt rt format ap ≤ countof_buf := by
    rw [hsz]; unfold countof_buf; omega
  have hn : 0 ≤ (renderStep tgt rt (requiredSize tgt rt format ap) format ap).n := by
    rw [hr]; exact Int.ofNat_nonneg _
  rw [Logv_stack_ok self tgt rt format ap w hle hn, hr, hsz]
  simp [newEvents, mallocCalls, renderCalls, callbacks]

/-- The reference semantics renders `"value=%d"` with argument 42 to `value=42`. -/
theorem stdFormat_value_42 : stdFormat "value=%d" [.int 42] = some "value=42".toList := by
  decide

/-- Witness for C2: `"value=%d"` with argument 42 is rendered on the stack and
the host list receives `value=42`. -/
theorem Logv_short_message_no_malloc_witness :
    mallocCalls (newEvents emptyWorld
      (listLogger.Logv msvc64 (stdRuntime stdFormat (bumpAlloc 0)) "value=%d" [.int 42]
        emptyWorld)) = [] ∧
    (listLogger.Logv msvc64 (stdRuntime stdFormat (bumpAlloc 0)) "value=%d" [.int 42]
      emptyWorld).world.host = ["value=42"] := by
  have h := Logv_short_message_no_malloc listLogger msvc64 (stdRuntime stdFormat (bumpAlloc 0))
    stdFormat (stdRuntime_conforms _ _) "value=%d" [.int 42] emptyWorld "value=42".toList
    stdFormat_value_42 (by decide)
  refine ⟨h.2.1, ?_⟩
  rw [h.2.2.2.2.2]
  decide

/-- Under a conforming runtime, a call whose text is measurable and whose heap
buffer, if one is needed, is granted returns after delivering the whole text. -/
theorem Logv_of_conforms (self : DelegateLogger σ) (tgt : Target)
    (rt : CRuntime σ) (fmt : Formatter) (hc : Conforms rt fmt)
    (format : String) (ap : VaList) (w : World σ) (s : List Char)
    (hs : fmt format ap = some s) (hlen : (s.length : Int) ≤ INT_MAX)
    (halloc : countof_buf < requiredSize tgt rt format ap →
      (rt.malloc w.heap (requiredSize tgt rt format ap)).isSome) :
    (self.Logv tgt rt format ap w).status = .returned ∧
    callbacks (newEvents w (self.Logv tgt rt format ap w)) = [s ++ [NUL]] ∧
    (self.Logv tgt rt format ap w).world.host = self.logger (s ++ [NUL]) w.host := by
  have hr := renderStep_of_conforms tgt rt fmt hc format ap s hs hlen
  have hn : 0 ≤ (renderStep tgt rt (requiredSize tgt rt format ap) format ap).n := by
    rw [hr]; exact Int.ofNat_nonneg _
  by_cases hsz : countof_buf < requiredSize tgt rt format ap
  · cases hm : rt.malloc w.heap (requiredSize tgt rt format ap) with
    | none =>
      have := halloc hsz
      rw [hm] at this
      cases this
    | some p =>
      rw [Logv_heap_ok self tgt rt format ap w p hsz hm hn, hr]
      simp [newEvents, callbacks]
  · rw [Logv_stack_ok self tgt rt format ap w (Nat.not_lt.mp hsz) hn, hr]
    simp [newEvents, callbacks]

/-- C1: under a runtime that measures and renders by one formatting semantics,
whenever `format` and `ap` have a rendering `s` that the measuring call can
count, and the heap buffer, if one is needed, is granted, `Logv` returns after
invoking the callback exactly once on a buffer that holds all of `s` followed
by its terminator, whatever the length of `s`; read as a C string, that buffer
is `s` itself. -/
theorem Logv_delivers_complete_rendering (self : DelegateLogger σ) (tgt : Target)
    (rt : CRuntime σ) (fmt : Formatter) (hc : Conforms rt fmt)
    (format : String) (ap : VaList) (w : World σ) (s : List Char)
    (hs : fmt format ap = some s) (hlen : (s.length : Int) ≤ INT_MAX)
    (halloc : countof_buf < requiredSize tgt rt format ap →
      (rt.malloc w.heap (requiredSize tgt rt format ap)).isSome) :
    (self.Logv tgt rt format ap w).status = .returned ∧
    callbacks (newEvents w (self.Logv tgt rt format ap w)) = [s ++ [NUL]] ∧
    (self.Logv tgt rt format ap w).world.host = self.logger (s ++ [NUL]) w.host ∧
    (NUL ∉ s → (callbacks (newEvents w (self.Logv tgt rt format ap w))).map cstr = [s]) := by
  have h := Logv_of_conforms self tgt rt fmt hc format ap w s hs hlen halloc
  refine ⟨h.1, h.2.1, h.2.2, ?_⟩
  intro hnul
  rw [h.2.1]
  simp [cstr_append_NUL s hnul]

/-- Witness for C1: with a callback that appends to a list, `"value=%d"` with
argument 42 leaves the list `["value=42"]`, and a 500-character message is
delivered as all 500 characters. -/
theorem Logv_delivers_complete_rendering_witness :
    (listLogger.Logv msvc64 (stdRuntime stdFormat (bumpAlloc 1000)) "value=%d" [.int 42]
      emptyWorld).world.host = ["value=42"] ∧
    (listLogger.Logv msvc64 (stdRuntime stdFormat (bumpAlloc 1000)) "%s"
      [.str (List.replicate 500 'x')] emptyWorld).world.host
      = [String.mk (List.replicate 500 'x')] := by
  have h1 := Logv_delivers_complete_rendering listLogger msvc64
    (stdRuntime stdFormat (bumpAlloc 1000)) stdFormat (stdRuntime_conforms _ _)
    "value=%d" [.int 42] emptyWorld "value=42".toList stdFormat_value_42 (by decide)
    (by intro _; decide)
  have h2 := Logv_delivers_complete_rendering listLogger msvc64
    (stdRuntime stdFormat (bumpAlloc 1000)) stdFormat (stdRuntime_conforms _ _)
    "%s" [.str (List.replicate 500 'x')] emptyWorld (List.replicate 500 'x')
    (stdFormat_percent_s _) (by rw [List.length_replicate]; decide)
    (by
      intro _
      rw [requiredSize_replicate _ _ 500 (by decide)]
      simp [stdRuntime, bumpAlloc])
  refine ⟨?_, ?_⟩
  · rw [h1.2.2.1]
    decide
  · rw [h2.2.2.1]
    simp only [listLogger, appendToList, emptyWorld, List.nil_append]
    rw [cstr_append_NUL _ (NUL_not_mem_replicate 500)]

/-- C3: when the measuring call reports a length of at least 128 (so in
particular one that exceeds the scratch buffer) whose successor fits in `int`,
and `malloc` honours its contract of never returning a live block, a `Logv`
call that returns has made exactly one `malloc` call, for exactly `len + 1`
bytes, has rendered into that block, then invoked the callback, then freed
that same block, in this order and with no other step; the live heap after
the call is the live heap before it. -/
theorem Logv_long_message_single_malloc (self : DelegateLogger σ) (tgt : Target)
    (rt : CRuntime σ) (format : String) (ap : VaList) (w : World σ) (len : Nat)
    (hm : rt.vscprintf format ap = (len : Int)) (hlong : countof_buf ≤ len)
    (hint : (len : Int) < INT_MAX) (hfresh : FreshAlloc rt.malloc)
    (hret : (self.Logv tgt rt format ap w).status = .returned) :
    ∃ p, rt.malloc w.heap (len + 1) = some p ∧
      newEvents w (self.Logv tgt rt format ap w) =
        [.malloc (len + 1) (some p),
         .render (.heap p) (len + 1) (len + 1)
           (renderStep tgt rt (len + 1) format ap).written.length,
         .callback (renderStep tgt rt (len + 1) format ap).written,
         .free p] ∧
      mallocCalls (newEvents w (self.Logv tgt rt format ap w)) = [(len + 1, some p)] ∧
      freeCalls (newEvents w (self.Logv tgt rt format ap w)) = [p] ∧
      (self.Logv tgt rt format ap w).world.heap = w.heap := by
  have hsz := requiredSize_of_measure tgt rt format ap len hm hint
  have hgt : countof_buf < requiredSize tgt rt format ap := by rw [hsz]; omega
  cases hmal : rt.malloc w.heap (requiredSize tgt rt format ap) with
  | none =>
    rw [Logv_heap_null self tgt rt format ap w hgt hmal] at hret
    cases hret
  | some p =>
    by_cases hn : (renderStep tgt rt (requiredSize tgt rt format ap) format ap).n < 0
    · rw [Logv_heap_abort self tgt rt format ap w p hgt hmal hn] at hret
      cases hret
    · have hp : p ∉ w.heap.map Prod.fst := hfresh w.heap _ p hmal
      have hheap : ((p, Obj.chars (requiredSize tgt rt format ap)) :: w.heap).filter
          (fun b => b.1 ≠ p) = w.heap := by
        simpa [List.filter_cons] using filter_ne_of_not_mem w.heap p hp
      rw [Logv_heap_ok self tgt rt format ap w p hgt hmal (Int.not_lt.mp hn), hheap]
      rw [hsz] at hmal
      refine ⟨p, hmal, ?_⟩
      rw [hsz]
      simp [newEvents, mallocCalls, freeCalls]

/-- Witness for C3: a 500-character message under the reference runtime costs
one `malloc(501)`, freed before the call returns. -/
theorem Logv_long_message_single_malloc_witness :
    ∃ p, mallocCalls (newEvents emptyWorld
        (listLogger.Logv msvc64 (stdRuntime stdFormat (bumpAlloc 1000)) "%s"
          [.str (List.replicate 500 'x')] emptyWorld)) = [(501, some p)] ∧
      freeCalls (newEvents emptyWorld
        (listLogger.Logv msvc64 (stdRuntime stdFormat (bumpAlloc 1000)) "%s"
          [.str (List.replicate 500 'x')] emptyWorld)) = [p] ∧
      (listLogger.Logv msvc64 (stdRuntime stdFormat (bumpAlloc 1000)) "%s"
        [.str (List.replicate 500 'x')] emptyWorld).world.heap = [] := by
  have hs : stdFormat "%s" [.str (List.replicate 500 'x')] = some (List.replicate 500 'x') :=
    stdFormat_percent_s _
  have hl : ((List.replicate 500 'x').length : Int) ≤ INT_MAX := by
    rw [List.length_replicate]; decide
  have hmeas := (stdRuntime_conforms stdFormat
    (bumpAlloc 1000 : Heap (List String) → Nat → Option Addr)).measure "%s"
    [.str (List.replicate 500 'x')] (List.replicate 500 'x') hs hl
  rw [List.length_replicate] at hmeas
  have hret := (Logv_of_conforms listLogger msvc64 (stdRuntime stdFormat (bumpAlloc 1000))
    stdFormat (stdRuntime_conforms _ _) "%s" [.str (List.replicate 500 'x')] emptyWorld
    (List.replicate 500 'x') hs hl
    (by
      intro _
      rw [requiredSize_replicate _ _ 500 (by decide)]
      simp [stdRuntime, bumpAlloc])).1
  obtain ⟨p, _, _, hmc, hfc, hheap⟩ := Logv_long_message_single_malloc listLogger msvc64
    (stdRuntime stdFormat (bumpAlloc 1000)) "%s" [.str (List.replicate 500 'x')] emptyWorld 500
    hmeas (by decide) (by decide) (bumpAlloc_fresh 1000) hret
  exact ⟨p, hmc, hfc, hheap⟩

/-- C5: when the measuring call reports a length `len`, every render call that
`Logv` makes targets a buffer whose capacity is 128 when `sz ≤ 128` and `sz`
otherwise, is declared `sz` bytes, and has capacity at least `sz` and at least
`len + 1`; so a render call that stores `len + 1` bytes stays inside the
buffer. -/
theorem Logv_buffer_never_too_small (self : DelegateLogger σ) (tgt : Target)
    (rt : CRuntime σ) (format : String) (ap : VaList) (w : World σ) (len : Nat)
    (hm : rt.vscprintf format ap = (len : Int)) (hlen : (len : Int) ≤ INT_MAX)
    (b : BufPtr) (capacity declared stored : Nat)
    (hcall : (b, capacity, declared, stored) ∈
      renderCalls (newEvents w (self.Logv tgt rt format ap w))) :
    capacity = (if countof_buf < requiredSize tgt rt format ap
      then requiredSize tgt rt format ap else countof_buf) ∧
    (b = .stack ↔ requiredSize tgt rt format ap ≤ countof_buf) ∧
    declared = requiredSize tgt rt format ap ∧
    requiredSize tgt rt format ap ≤ capacity ∧
    len + 1 ≤ capacity ∧
    stored = (renderStep tgt rt (requiredSize tgt rt format ap) format ap).written.length ∧
    ((renderStep tgt rt (requiredSize tgt rt format ap) format ap).written.length = len + 1 →
      stored ≤ capacity) := by
  have hlt := lt_requiredSize_of_measure tgt rt format ap len hm hlen
  have key : capacity = (if countof_buf < requiredSize tgt rt format ap
      then requiredSize tgt rt format ap else countof_buf) ∧
      (b = .stack ↔ requiredSize tgt rt format ap ≤ countof_buf) ∧
      declared = requiredSize tgt rt format ap ∧
      stored = (renderStep tgt rt (requiredSize tgt rt format ap) format ap).written.length := by
    by_cases hsz : countof_buf < requiredSize tgt rt format ap
    · cases hmal : rt.malloc w.heap (requiredSize tgt rt format ap) with
      | none =>
        rw [Logv_heap_null self tgt rt format ap w hsz hmal] at hcall
        simp [newEvents, renderCalls] at hcall
      | some p =>
        by_cases hn : (renderStep tgt rt (requiredSize tgt rt format ap) format ap).n < 0
        · rw [Logv_heap_abort self tgt rt format ap w p hsz hmal hn] at hcall
          simp [newEvents, renderCalls] at hcall
          obtain ⟨rfl, rfl, rfl, rfl⟩ := hcall
          simp [hsz]
        · rw [Logv_heap_ok self tgt rt format ap w p hsz hmal (Int.not_lt.mp hn)] at hcall
          simp [newEvents, renderCalls] at hcall
          obtain ⟨rfl, rfl, rfl, rfl⟩ := hcall
          simp [hsz]
    · by_cases hn : (renderStep tgt rt (requiredSize tgt rt format ap) format ap).n < 0
      · rw [Logv_stack_abort self tgt rt format ap w (Nat.not_lt.mp hsz) hn] at hcall
        simp [newEvents, renderCalls] at hcall
        obtain ⟨rfl, rfl, rfl, rfl⟩ := hcall
        simp [hsz, Nat.not_lt.mp hsz]
      · rw [Logv_stack_ok self tgt rt format ap w (Nat.not_lt.mp hsz) (Int.not_lt.mp hn)] at hcall
        simp [newEvents, renderCalls] at hcall
        obtain ⟨rfl, rfl, rfl, rfl⟩ := hcall
        simp [hsz, Nat.not_lt.mp hsz]
  obtain ⟨hcap, hb, hd, hst⟩ := key
  have hcap2 : requiredSize tgt rt format ap ≤ capacity := by
    rw [hcap]; split <;> omega
  refine ⟨hcap, hb, hd, hcap2, by omega, hst, ?_⟩
  intro hw
  rw [hst, hw]
  omega

/-- Witness for C5: `"value=%d"` with 42 measures 8 characters; the one render
call targets the 128-byte stack buffer, declared 9 bytes, and stores 9. -/
theorem Logv_buffer_never_too_small_witness :
    (128 : Nat) = (if countof_buf < requiredSize msvc64
        (stdRuntime stdFormat (bumpAlloc 1000 : Heap (List String) → Nat → Option Addr))
        "value=%d" [.int 42]
      then requiredSize msvc64
        (stdRuntime stdFormat (bumpAlloc 1000 : Heap (List String) → Nat → Option Addr))
        "value=%d" [.int 42]
      else countof_buf) ∧
    8 + 1 ≤ 128 :=
  have h := Logv_buffer_never_too_small listLogger msvc64
    (stdRuntime stdFormat (bumpAlloc 1000)) "value=%d" [.int 42] emptyWorld 8
    (by decide) (by decide) .stack 128 9 9 (by decide)
  ⟨h.1, h.2.2.2.2.1⟩

/-- Storing into a block that is not live changes nothing. -/
theorem map_store_of_not_mem (h : Heap σ) (p : Addr) (o : Obj σ) (hp : p ∉ h.map Prod.fst) :
    h.map (fun b => if b.1 = p then (p, o) else b) = h := by
  induction h with
  | nil => rfl
  | cons b t ih =>
    have hb : b.1 ≠ p := fun e => hp (by simp [e])
    have ht : p ∉ t.map Prod.fst := fun m => hp (by
      rw [List.map_cons]; exact List.mem_cons_of_mem _ m)
    rw [List.map_cons, ih ht, if_neg hb]

/-- What `leveldb_logger_create` does when both `new` expressions succeed at
fresh addresses. -/
theorem leveldb_logger_create_ok (tgt : Target) (rt : CRuntime σ)
    (cb : leveldb_log_string_fn σ) (w : World σ) (hfresh : FreshAlloc rt.operatorNew)
    (result rep : Addr)
    (h1 : rt.operatorNew w.heap (sizeof_logger_t tgt) = some result)
    (h2 : rt.operatorNew ((result, .leveldb_logger_t none) :: w.heap)
      (sizeof_DelegateLogger tgt) = some rep) :
    leveldb_logger_create tgt rt cb w =
      (some result, ⟨.returned,
        ⟨(rep, .delegateLogger ⟨cb⟩) :: (result, .leveldb_logger_t (some rep)) :: w.heap,
         w.host,
         w.trace ++ [.opNew (sizeof_logger_t tgt) (some result),
           .opNew (sizeof_DelegateLogger tgt) (some rep)]⟩⟩) := by
  have hr : result ∉ w.heap.map Prod.fst := hfresh _ _ _ h1
  have hp := hfresh _ _ _ h2
  have hne : rep ≠ result := fun e => hp (by simp [e])
  simp only [leveldb_logger_create, h1, World.alloc, World.emit, h2, World.store,
    List.map_cons, if_neg hne, if_true, map_store_of_not_mem w.heap result _ hr,
    List.append_assoc, List.singleton_append]

/-- What `leveldb_logger_destroy` does on a handle as `leveldb_logger_create`
leaves it. -/
theorem leveldb_logger_destroy_ok (cb : leveldb_log_string_fn σ) (heap : Heap σ) (host : σ)
    (trace : List Event) (result rep : Addr) (hne : rep ≠ result)
    (hr : result ∉ heap.map Prod.fst) (hp : rep ∉ heap.map Prod.fst) :
    leveldb_logger_destroy result
      ⟨(rep, .delegateLogger ⟨cb⟩) :: (result, .leveldb_logger_t (some rep)) :: heap,
        host, trace⟩ =
      ⟨.returned, ⟨heap, host, trace ++ [.opDelete rep, .opDelete result]⟩⟩ := by
  have hne2 : result ≠ rep := fun e => hne e.symm
  simp [leveldb_logger_destroy, World.load, World.release, World.emit, List.find?_cons,
    List.filter_cons, hne, hne2]
  intro a b hab
  have hm : a ∈ heap.map Prod.fst := List.mem_map_of_mem Prod.fst hab
  exact ⟨fun e => hr (e ▸ hm), fun e => hp (e ▸ hm)⟩

/-- C8: when `operator new` never returns a live block and
`leveldb_logger_create` returns a handle, the create made exactly two
allocations, first the handle and then the adapter the handle points to;
`leveldb_logger_destroy` on that handle returns after exactly two
deallocations, first the adapter and then the handle; and the live heap after
the destroy is the live heap before the create, with the host state
untouched. -/
theorem create_then_destroy_restores_heap (tgt : Target) (rt : CRuntime σ)
    (cb : leveldb_log_string_fn σ) (w : World σ) (hfresh : FreshAlloc rt.operatorNew)
    (handle : Addr) (e1 : Exec σ)
    (hcreate : leveldb_logger_create tgt rt cb w = (some handle, e1)) :
    ∃ rep,
      e1.status = .returned ∧
      newEvents w e1 = [.opNew (sizeof_logger_t tgt) (some handle),
        .opNew (sizeof_DelegateLogger tgt) (some rep)] ∧
      e1.world.heap =
        (rep, .delegateLogger ⟨cb⟩) :: (handle, .leveldb_logger_t (some rep)) :: w.heap ∧
      (leveldb_logger_destroy handle e1.world).status = .returned ∧
      newEvents e1.world (leveldb_logger_destroy handle e1.world) =
        [.opDelete rep, .opDelete handle] ∧
      (leveldb_logger_destroy handle e1.world).world.heap = w.heap ∧
      (leveldb_logger_destroy handle e1.world).world.host = w.host := by
  cases h1 : rt.operatorNew w.heap (sizeof_logger_t tgt) with
  | none =>
    simp [leveldb_logger_create, h1] at hcreate
  | some result =>
    cases h2 : rt.operatorNew ((result, .leveldb_logger_t none) :: w.heap)
        (sizeof_DelegateLogger tgt) with
    | none =>
      simp [leveldb_logger_create, h1, World.alloc, World.emit, h2] at hcreate
    | some rep =>
      rw [leveldb_logger_create_ok tgt rt cb w hfresh result rep h1 h2] at hcreate
      have hr : result ∉ w.heap.map Prod.fst := hfresh _ _ _ h1
      have hp := hfresh _ _ _ h2
      have hne : rep ≠ result := fun e => hp (by simp [e])
      have hp2 : rep ∉ w.heap.map Prod.fst := fun m => hp (by
        rw [List.map_cons]; exact List.mem_cons_of_mem _ m)
      obtain ⟨hh, he⟩ := Prod.mk.inj hcreate
      have hh2 : result = handle := Option.some.inj hh
      subst hh2
      subst he
      refine ⟨rep, rfl, ?_, rfl, ?_⟩
      · simp [newEvents]
      · simp only []
        rw [leveldb_logger_destroy_ok cb w.heap w.host _ result rep hne hr hp2]
        simp [newEvents]

/-- Witness for C8: creating a logger in an empty heap and destroying it at
once leaves the heap empty. -/
theorem create_then_destroy_restores_heap_witness :
    (leveldb_logger_create msvc64 (stdRuntime stdFormat (bumpAlloc 1000)) appendToList
      emptyWorld).1 = some 1 ∧
    ∃ rep,
      newEvents emptyWorld (leveldb_logger_create msvc64
        (stdRuntime stdFormat (bumpAlloc 1000)) appendToList emptyWorld).2 =
        [.opNew 8 (some 1), .opNew 16 (some rep)] ∧
      newEvents (leveldb_logger_create msvc64
          (stdRuntime stdFormat (bumpAlloc 1000)) appendToList emptyWorld).2.world
        (leveldb_logger_destroy 1 (leveldb_logger_create msvc64
          (stdRuntime stdFormat (bumpAlloc 1000)) appendToList emptyWorld).2.world) =
        [.opDelete rep, .opDelete 1] ∧
      (leveldb_logger_destroy 1 (leveldb_logger_create msvc64
        (stdRuntime stdFormat (bumpAlloc 1000)) appendToList emptyWorld).2.world).world.heap
        = [] := by
  refine ⟨rfl, ?_⟩
  obtain ⟨rep, _, hev, _, _, hdel, hheap, _⟩ := create_then_destroy_restores_heap msvc64
    (stdRuntime stdFormat (bumpAlloc 1000)) appendToList emptyWorld (bumpAlloc_fresh 1000) 1
    (leveldb_logger_create msvc64 (stdRuntime stdFormat (bumpAlloc 1000)) appendToList
      emptyWorld).2 rfl
  exact ⟨rep, hev, hdel, hheap⟩

end Extensions
